import Mathlib

/-!
Verification of the mxdev requirements/constraints resolution pipeline
(`src/mxdev/processing.py`) against its natural-language specification.

Python strings are embedded as `List Char` (`Str`), so that the string
operations the code uses (`strip`, `split(" ")`, `startswith`, `replace`,
`lower`) become structurally recursive Lean functions.  File contents are
embedded as a finite map from path to the list of lines of the file
(lines keep their trailing newline, as Python file iteration yields them).
Fallible code returns `Except`: an `Except.error` models a raised Python
exception.  The unbounded recursion of `resolve_dependencies` through
nested `-c`/`-r` includes is made total with a fuel parameter; running out
of fuel is the distinguished error `PyErr.fuelOut`, never confused with an
exception the Python code can actually raise.
-/

/-- Python strings, embedded character by character. -/
abbrev Str := List Char

/-- The whitespace characters stripped by Python's `str.strip()`
(ASCII subset, which is all the repository's inputs use). -/
def py_ws (c : Char) : Bool :=
  c = ' ' || c = '\t' || c = '\n' || c = '\x0d' || c = '\x0b' || c = '\x0c'

/-- Python `str.strip()`: remove leading and trailing whitespace. -/
def py_strip (s : Str) : Str :=
  ((s.dropWhile py_ws).reverse.dropWhile py_ws).reverse

/-- Python `str.split(sep)` for a one-character separator: split at every
occurrence, keeping empty pieces (so `"".split(" ") = [""]`). -/
def py_split (sep : Char) : Str → List Str
  | [] => [[]]
  | c :: cs =>
    let r := py_split sep cs
    if c = sep then [] :: r
    else
      match r with
      | h :: t => (c :: h) :: t
      | [] => [[c]]

/-- Python `str.lower()` (ASCII lowering, which is all the code needs). -/
def py_lower (s : Str) : Str := s.map Char.toLower

/-- Python `str.replace(a, b)` for one-character `a` and `b`. -/
def py_replace (a b : Char) (s : Str) : Str :=
  s.map fun c => if c = a then b else c

/-- `autocorrect_pip_url` from `src/mxdev/processing.py`: rewrite pip
URLs pasted from hosting sites into `git+...` form, and return every
other input unchanged. -/
def autocorrect_pip_url (pip_url : Str) : Str :=
  if "git@".toList.isPrefixOf pip_url then
    "git+ssh://".toList ++ py_replace ':' '/' pip_url
  else if "ssh://".toList.isPrefixOf pip_url then
    "git+".toList ++ pip_url
  else if "https://".toList.isPrefixOf pip_url then
    "git+".toList ++ pip_url
  else pip_url

theorem autocorrect_fixes_gitplus (xs : Str) :
    autocorrect_pip_url ('g' :: 'i' :: 't' :: '+' :: xs) =
      'g' :: 'i' :: 't' :: '+' :: xs := rfl

/-- C10: `autocorrect_pip_url` is idempotent: every rewritten result
starts with `git+`, which matches none of the three rewrite triggers
`git@`, `ssh://`, `https://`, so a second application changes nothing. -/
theorem autocorrect_pip_url_idempotent (s : Str) :
    autocorrect_pip_url (autocorrect_pip_url s) = autocorrect_pip_url s := by
  by_cases h1 : "git@".toList.isPrefixOf s
  · have hs : autocorrect_pip_url s =
        'g' :: 'i' :: 't' :: '+' ::
          ('s' :: 's' :: 'h' :: ':' :: '/' :: '/' :: py_replace ':' '/' s) := by
      unfold autocorrect_pip_url
      rw [if_pos h1]
      rfl
    rw [hs]
    exact autocorrect_fixes_gitplus _
  · by_cases h2 : "ssh://".toList.isPrefixOf s
    · have hs : autocorrect_pip_url s = 'g' :: 'i' :: 't' :: '+' :: s := by
        unfold autocorrect_pip_url
        rw [if_neg h1, if_pos h2]
        rfl
      rw [hs]
      exact autocorrect_fixes_gitplus _
    · by_cases h3 : "https://".toList.isPrefixOf s
      · have hs : autocorrect_pip_url s = 'g' :: 'i' :: 't' :: '+' :: s := by
          unfold autocorrect_pip_url
          rw [if_neg h1, if_neg h2, if_pos h3]
          rfl
        rw [hs]
        exact autocorrect_fixes_gitplus _
      · have hs : autocorrect_pip_url s = s := by
          unfold autocorrect_pip_url
          rw [if_neg h1, if_neg h2, if_neg h3]
        rw [hs]
        exact hs

/-! ## The resolution pipeline data model -/

/-- A log level of the `logging` calls the pipeline makes. -/
inductive Level where
  | debug
  | info
deriving DecidableEq, Repr

/-- One `logger.debug`/`logger.info` call made by the pipeline. -/
structure LogEntry where
  level : Level
  msg : Str
deriving DecidableEq, Repr

/-- The result of one pipeline call: the accumulated `requirements` and
`constraints` line lists returned by `process_line`, `process_io` and
`resolve_dependencies`, together with the log messages emitted while
producing them. -/
structure Out where
  reqs : List Str
  cons : List Str
  logs : List LogEntry
deriving DecidableEq, Repr

/-- The exceptions the embedded code can raise (plus fuel exhaustion,
an artifact of making the unbounded include recursion total). -/
inductive PyErr where
  | indexError
  | urlOpenError
  | fuelOut
deriving DecidableEq, Repr

/-- The fixed file contents a resolution run reads: local files are read
through `Path.open`, remote ones through `urllib.request.urlopen`.  Each
file is its list of lines, every line keeping its trailing newline. -/
structure FS where
  localFiles : List (Str × List Str)
  remoteFiles : List (Str × List Str)

/-- Projects an `Except`-valued pipeline result to just the pair of the
requirements and constraints line lists (`none` when an exception was
raised), hiding the log messages. -/
def result_pair (e : Except PyErr Out) : Option (List Str × List Str) :=
  match e with
  | .ok o => some (o.reqs, o.cons)
  | .error _ => none

/-- A character that may occur in a requirement's project name. -/
def name_char (c : Char) : Bool :=
  c.isAlphanum || c = '.' || c = '-' || c = '_'

/-- A character that may start the part of a requirement line following
the project name: extras, version specifiers, markers or a direct URL. -/
def spec_start (c : Char) : Bool :=
  c = '[' || c = '(' || c = '<' || c = '>' || c = '=' || c = '!' || c = '~' ||
    c = ';' || c = '@' || c = ','

/-- Models the external `pkg_resources.Requirement.parse` call made by
`process_line`: on success it yields the requirement's `key`, the
lowercased project name; on parse failure (`none`) the caller falls back
to pass-through.  A line parses when, after stripping, it starts with an
alphanumeric project name that is followed by nothing or by an
extras/specifier/marker/URL part. -/
def requirement_key (line : Str) : Option Str :=
  let s := py_strip line
  match s with
  | [] => none
  | c :: _ =>
    if c.isAlphanum then
      let name := s.takeWhile name_char
      let rest := (s.drop name.length).dropWhile py_ws
      match rest with
      | [] => some (py_lower name)
      | r :: _ => if spec_start r then some (py_lower name) else none
    else none

/-- The commented-out form `process_line` rewrites a suppressed line to:
the Python `f"# {line.strip()} -> mxdev disabled ({reason})\n"`. -/
def disable_line (reason : String) (line : Str) : Str :=
  "# ".toList ++ py_strip line ++ " -> mxdev disabled (".toList ++
    reason.toList ++ ")\n".toList

/-- The `logger.debug(f"Process Line [{variety}]: {line.strip()}")` entry
emitted at the top of `process_line`. -/
def process_line_log (v : String) (line : Str) : LogEntry :=
  ⟨.debug, "Process Line [".toList ++ v.toList ++ "]: ".toList ++ py_strip line⟩

/-- Prepend a log entry to a result's log list. -/
def with_log (e : LogEntry) (o : Out) : Out :=
  ⟨o.reqs, o.cons, e :: o.logs⟩

/-- `process_line` from `src/mxdev/processing.py`, with the recursive
`resolve_dependencies` call abstracted as `recur` (instantiated with the
fueled `resolve_dependencies` below).  A `-c`/`-r` directive recurses into
its target with the forced variety; any other line is annotated by the
three suppression rules (each an independent `if` rewriting the current
line) and returned as a constraint when the variety is `"c"`, as a
requirement otherwise.  `line.split(" ")[1]` raises `IndexError` when the
directive has no second field. -/
def process_line_with (recur : Str → String → Except PyErr Out)
    (package_keys override_keys ignore_keys : List Str)
    (line : Str) (variety : String) : Except PyErr Out :=
  let dbg := process_line_log variety line
  if "-c".toList.isPrefixOf line then
    match (py_split ' ' line).get? 1 with
    | none => .error .indexError
    | some t =>
      match recur (py_strip t) "c" with
      | .error e => .error e
      | .ok o => .ok (with_log dbg o)
  else if "-r".toList.isPrefixOf line then
    match (py_split ' ' line).get? 1 with
    | none => .error .indexError
    | some t =>
      match recur (py_strip t) "r" with
      | .error e => .error e
      | .ok o => .ok (with_log dbg o)
  else
    let line2 :=
      match requirement_key line with
      | none => line
      | some k =>
        let l1 := if k ∈ package_keys then disable_line "source" line else line
        let l2 := if variety = "c" ∧ k ∈ override_keys then disable_line "override" l1 else l1
        if variety = "c" ∧ k ∈ ignore_keys then disable_line "ignore" l2 else l2
    if variety = "c" then .ok ⟨[], [line2], [dbg]⟩ else .ok ⟨[line2], [], [dbg]⟩

/-- `process_io` from `src/mxdev/processing.py`: run `process_line` over
each line of an open file, concatenating the returned requirement and
constraint lines in order (the Python mutates the two accumulator lists;
appending per line is the same).  An exception aborts the whole run. -/
def process_fio_with (recur : Str → String → Except PyErr Out)
    (package_keys override_keys ignore_keys : List Str)
    (lines : List Str) (variety : String) : Except PyErr Out :=
  match lines with
  | [] => .ok ⟨[], [], []⟩
  | l :: rest =>
    match process_line_with recur package_keys override_keys ignore_keys l variety with
    | .error e => .error e
    | .ok o1 =>
      match process_fio_with recur package_keys override_keys ignore_keys rest variety with
      | .error e => .error e
      | .ok o2 => .ok ⟨o1.reqs ++ o2.reqs, o1.cons ++ o2.cons, o1.logs ++ o2.logs⟩

/-- The 79-character comment bar `"#" * 79` used around every block. -/
def hashes79 : Str := List.replicate 79 '#'

/-- The begin/end delimiter lines wrapped around a non-empty requirements
result at the end of `resolve_dependencies` (note the begin marker ends
in a blank line folded into the same write). -/
def wrap_req (origin : Str) (body : List Str) : List Str :=
  (hashes79 ++ "\n".toList) ::
    ("# begin requirements from: ".toList ++ origin ++ "\n\n".toList) ::
    body ++
      ["\n".toList,
       "# end requirements from: ".toList ++ origin ++ "\n".toList,
       hashes79 ++ "\n".toList]

/-- The begin/end delimiter lines wrapped around a non-empty constraints
result at the end of `resolve_dependencies` (the closing bar carries an
extra blank line). -/
def wrap_cons (origin : Str) (body : List Str) : List Str :=
  (hashes79 ++ "\n".toList) ::
    ("# begin constraints from: ".toList ++ origin ++ "\n".toList) ::
    "\n".toList ::
    body ++
      ["\n".toList,
       "# end constraints from: ".toList ++ origin ++ "\n".toList,
       hashes79 ++ "\n\n".toList]

/-- The two final `if`s of `resolve_dependencies`: a non-empty
requirements list is wrapped in delimiters when the variety is `"r"`, a
non-empty constraints list when it is `"c"`; empty lists stay empty and
get no delimiters. -/
def wrap_step (file_or_url : Str) (variety : String) (o : Out) : Out :=
  ⟨if o.reqs ≠ [] ∧ variety = "r" then wrap_req file_or_url o.reqs else o.reqs,
   if o.cons ≠ [] ∧ variety = "c" then wrap_cons file_or_url o.cons else o.cons,
   o.logs⟩

/-- A character allowed inside a URL scheme by `urllib.parse`. -/
def scheme_char (c : Char) : Bool :=
  c.isAlphanum || c = '+' || c = '-' || c = '.'

/-- Models `urllib.parse.urlparse(url).scheme`: the lowercased text
before the first colon, when that text is non-empty, starts with a letter
and uses only scheme characters; otherwise the empty scheme. -/
def url_scheme (u : Str) : Str :=
  let pre := u.takeWhile fun c => !(c == ':')
  if pre.length < u.length ∧ pre ≠ [] ∧
      (pre.headD ' ').isAlpha = true ∧ pre.all scheme_char = true then
    py_lower pre
  else []

/-- The `logger.info(f"Read [{variety}]: {file_or_url}")` entry. -/
def read_log (v : String) (f : Str) : LogEntry :=
  ⟨.info, "Read [".toList ++ v.toList ++ "]: ".toList ++ f⟩

/-- The `logger.info` entry emitted when a local path does not exist:
the pipeline assumes an empty file instead of raising. -/
def missing_file_log (v : String) (f : Str) : LogEntry :=
  ⟨.info,
    "Can not read ".toList ++
      (if v = "r" then "requirements" else "constraints").toList ++
      " file '".toList ++ f ++ "', it does not exist. Empty file assumed.".toList⟩

/-- The `logger.info` entry for a blank entry point. -/
def no_input_log : LogEntry :=
  ⟨.info, "mxdev is configured to run without input requirements!".toList⟩

/-- The middle part of `resolve_dependencies`: open and process the
target.  A target without URL scheme is read from the local files (a
missing one is logged with "Empty file assumed." and treated as empty); a
target with a scheme is fetched with `urlopen`, whose failure on an
unknown URL is the raised `urlOpenError`.  The collected lines go
through `process_io`. -/
def read_and_process (fs : FS) (recur : Str → String → Except PyErr Out)
    (package_keys override_keys ignore_keys : List Str)
    (file_or_url : Str) (variety : String) : Except PyErr Out :=
  if url_scheme file_or_url = [] then
    match fs.localFiles.lookup file_or_url with
    | some lines =>
      match process_fio_with recur package_keys override_keys ignore_keys lines variety with
      | .error e => .error e
      | .ok o => .ok (with_log (read_log variety file_or_url) o)
    | none =>
      .ok ⟨[], [], [read_log variety file_or_url, missing_file_log variety file_or_url]⟩
  else
    match fs.remoteFiles.lookup file_or_url with
    | some lines =>
      match process_fio_with recur package_keys override_keys ignore_keys lines variety with
      | .error e => .error e
      | .ok o => .ok (with_log (read_log variety file_or_url) o)
    | none => .error .urlOpenError

/-- `resolve_dependencies` from `src/mxdev/processing.py`, totalized by
fuel (each nested `-c`/`-r` include costs one unit).  A blank target is a
no-op success; otherwise the target is read and processed by
`read_and_process` and the final block wrapping of `wrap_step` is
applied. -/
def resolve_dependencies (fs : FS) (package_keys override_keys ignore_keys : List Str) :
    Nat → Str → String → Except PyErr Out
  | 0, _, _ => .error .fuelOut
  | fuel + 1, file_or_url, variety =>
    if py_strip file_or_url = [] then
      .ok ⟨[], [], [no_input_log]⟩
    else
      match read_and_process fs
          (resolve_dependencies fs package_keys override_keys ignore_keys fuel)
          package_keys override_keys ignore_keys file_or_url variety with
      | .error e => .error e
      | .ok o => .ok (wrap_step file_or_url variety o)

/-- `process_line` applied with the fueled `resolve_dependencies` as its
recursive include resolver. -/
def process_line (fs : FS) (package_keys override_keys ignore_keys : List Str)
    (fuel : Nat) (line : Str) (variety : String) : Except PyErr Out :=
  process_line_with (resolve_dependencies fs package_keys override_keys ignore_keys fuel)
    package_keys override_keys ignore_keys line variety

/-! ## Line classification claims -/

/-- C1 counterexample: on a constraint-context line whose key is both a
package key and an override key, `process_line` does not stop at the
first matching rule: the emitted comment carries both the "disabled
(source)" and the "disabled (override)" reason, so it differs from the
single-reason line the claim predicts. -/
theorem overlap_not_first_match_only :
    result_pair (process_line ⟨[], []⟩ ["pkg".toList] ["pkg".toList] []
        1 "pkg==1.0\n".toList "c") =
      some ([],
        ["# # pkg==1.0 -> mxdev disabled (source) -> mxdev disabled (override)\n".toList]) ∧
    "# # pkg==1.0 -> mxdev disabled (source) -> mxdev disabled (override)\n".toList ≠
      "# pkg==1.0 -> mxdev disabled (source)\n".toList :=
  ⟨rfl, by decide⟩

/-- C1 (amended): for a non-directive constraint-context line whose key
is in more than one of the three key sets, every matching suppression
rule is applied in order - source, then override, then ignore - each
commenting out the result of the previous one, so the emitted line
accumulates the reasons of all matching rules with the last matching
rule's reason last.  All four overlap combinations are covered. -/
theorem suppression_rules_cumulative (fs : FS)
    (package_keys override_keys ignore_keys : List Str) (fuel : Nat) (line k : Str)
    (hc : "-c".toList.isPrefixOf line = false)
    (hr : "-r".toList.isPrefixOf line = false)
    (hkey : requirement_key line = some k) :
    (k ∈ package_keys → k ∈ override_keys → k ∉ ignore_keys →
      result_pair (process_line fs package_keys override_keys ignore_keys fuel line "c") =
        some ([], [disable_line "override" (disable_line "source" line)])) ∧
    (k ∈ package_keys → k ∉ override_keys → k ∈ ignore_keys →
      result_pair (process_line fs package_keys override_keys ignore_keys fuel line "c") =
        some ([], [disable_line "ignore" (disable_line "source" line)])) ∧
    (k ∉ package_keys → k ∈ override_keys → k ∈ ignore_keys →
      result_pair (process_line fs package_keys override_keys ignore_keys fuel line "c") =
        some ([], [disable_line "ignore" (disable_line "override" line)])) ∧
    (k ∈ package_keys → k ∈ override_keys → k ∈ ignore_keys →
      result_pair (process_line fs package_keys override_keys ignore_keys fuel line "c") =
        some ([],
          [disable_line "ignore" (disable_line "override" (disable_line "source" line))])) := by
  refine ⟨fun h1 h2 h3 => ?_, fun h1 h2 h3 => ?_, fun h1 h2 h3 => ?_, fun h1 h2 h3 => ?_⟩
  all_goals
    unfold process_line process_line_with
    rw [if_neg (by simp only [hc]; exact Bool.false_ne_true),
        if_neg (by simp only [hr]; exact Bool.false_ne_true), hkey]
    dsimp only
  · rw [if_pos h1, if_pos (show "c" = "c" ∧ k ∈ override_keys from ⟨rfl, h2⟩),
        if_neg (show ¬("c" = "c" ∧ k ∈ ignore_keys) from fun h => h3 h.2),
        if_pos (show "c" = "c" from rfl)]
    rfl
  · rw [if_pos h1,
        if_neg (show ¬("c" = "c" ∧ k ∈ override_keys) from fun h => h2 h.2),
        if_pos (show "c" = "c" ∧ k ∈ ignore_keys from ⟨rfl, h3⟩),
        if_pos (show "c" = "c" from rfl)]
    rfl
  · rw [if_neg h1, if_pos (show "c" = "c" ∧ k ∈ override_keys from ⟨rfl, h2⟩),
        if_pos (show "c" = "c" ∧ k ∈ ignore_keys from ⟨rfl, h3⟩),
        if_pos (show "c" = "c" from rfl)]
    rfl
  · rw [if_pos h1, if_pos (show "c" = "c" ∧ k ∈ override_keys from ⟨rfl, h2⟩),
        if_pos (show "c" = "c" ∧ k ∈ ignore_keys from ⟨rfl, h3⟩),
        if_pos (show "c" = "c" from rfl)]
    rfl

theorem suppression_rules_cumulative_witness :
    result_pair (process_line ⟨[], []⟩ ["pkg".toList] ["pkg".toList] []
        1 "pkg==1.0\n".toList "c") =
      some ([], [disable_line "override" (disable_line "source" "pkg==1.0\n".toList)]) ∧
    result_pair (process_line ⟨[], []⟩ [] ["pkg".toList] ["pkg".toList]
        1 "pkg==1.0\n".toList "c") =
      some ([], [disable_line "ignore" (disable_line "override" "pkg==1.0\n".toList)]) :=
  ⟨(suppression_rules_cumulative ⟨[], []⟩ ["pkg".toList] ["pkg".toList] [] 1
      "pkg==1.0\n".toList "pkg".toList rfl rfl rfl).1 (by decide) (by decide) (by decide),
   (suppression_rules_cumulative ⟨[], []⟩ [] ["pkg".toList] ["pkg".toList] 1
      "pkg==1.0\n".toList "pkg".toList rfl rfl rfl).2.2.1 (by decide) (by decide)
      (by decide)⟩

/-- C4: override and ignore keys only act on constraint-context lines: a
requirement-context (variety `"r"`) line whose key is not a package key
is emitted unchanged whatever the override/ignore sets say, while a key
in `package_keys` is commented out as "disabled (source)" in both
varieties. -/
theorem override_ignore_only_in_constraint_context (fs : FS)
    (package_keys override_keys ignore_keys : List Str) (fuel : Nat) (line k : Str)
    (hc : "-c".toList.isPrefixOf line = false)
    (hr : "-r".toList.isPrefixOf line = false)
    (hkey : requirement_key line = some k) :
    (k ∉ package_keys →
      result_pair (process_line fs package_keys override_keys ignore_keys fuel line "r") =
        some ([line], [])) ∧
    (k ∈ package_keys → k ∉ override_keys → k ∉ ignore_keys →
      result_pair (process_line fs package_keys override_keys ignore_keys fuel line "r") =
        some ([disable_line "source" line], []) ∧
      result_pair (process_line fs package_keys override_keys ignore_keys fuel line "c") =
        some ([], [disable_line "source" line])) := by
  constructor
  · intro hnp
    unfold process_line process_line_with
    rw [if_neg (by simp only [hc]; exact Bool.false_ne_true),
        if_neg (by simp only [hr]; exact Bool.false_ne_true), hkey]
    dsimp only
    rw [if_neg hnp,
        if_neg (show ¬("r" = "c" ∧ k ∈ override_keys) from fun h => absurd h.1 (by decide)),
        if_neg (show ¬("r" = "c" ∧ k ∈ ignore_keys) from fun h => absurd h.1 (by decide)),
        if_neg (show ¬"r" = "c" by decide)]
    rfl
  · intro hp hno hni
    constructor
    · unfold process_line process_line_with
      rw [if_neg (by simp only [hc]; exact Bool.false_ne_true),
          if_neg (by simp only [hr]; exact Bool.false_ne_true), hkey]
      dsimp only
      rw [if_pos hp,
          if_neg (show ¬("r" = "c" ∧ k ∈ override_keys) from fun h => absurd h.1 (by decide)),
          if_neg (show ¬("r" = "c" ∧ k ∈ ignore_keys) from fun h => absurd h.1 (by decide)),
          if_neg (show ¬"r" = "c" by decide)]
      rfl
    · unfold process_line process_line_with
      rw [if_neg (by simp only [hc]; exact Bool.false_ne_true),
          if_neg (by simp only [hr]; exact Bool.false_ne_true), hkey]
      dsimp only
      rw [if_pos hp,
          if_neg (show ¬("c" = "c" ∧ k ∈ override_keys) from fun h => hno h.2),
          if_neg (show ¬("c" = "c" ∧ k ∈ ignore_keys) from fun h => hni h.2),
          if_pos (show "c" = "c" from rfl)]
      rfl

theorem override_ignore_only_in_constraint_context_witness :
    result_pair (process_line ⟨[], []⟩ [] ["foo".toList] ["foo".toList]
        1 "foo==1.0\n".toList "r") =
      some (["foo==1.0\n".toList], []) ∧
    result_pair (process_line ⟨[], []⟩ ["foo".toList] [] []
        1 "foo==1.0\n".toList "r") =
      some ([disable_line "source" "foo==1.0\n".toList], []) :=
  ⟨(override_ignore_only_in_constraint_context ⟨[], []⟩ [] ["foo".toList] ["foo".toList]
      1 "foo==1.0\n".toList "foo".toList rfl rfl rfl).1 (by decide),
   ((override_ignore_only_in_constraint_context ⟨[], []⟩ ["foo".toList] [] []
      1 "foo==1.0\n".toList "foo".toList rfl rfl rfl).2 (by decide) (by decide)
      (by decide)).1⟩

/-- C5 counterexample: the bare directive line `"-c\n"` fails to parse as
a requirement specifier, yet `process_line` raises `IndexError` on it
(`line.split(" ")[1]` has no element 1) instead of passing it through. -/
theorem bare_directive_line_raises :
    requirement_key "-c\n".toList = none ∧
    process_line ⟨[], []⟩ [] [] [] 1 "-c\n".toList "r" = .error .indexError :=
  ⟨rfl, rfl⟩

/-- C5 (amended): for every input line that does not begin with the
`-c`/`-r` directive markers, `process_line` never raises: a line that
fails to parse as a package requirement specifier is forwarded unchanged
into the requirements (or, in constraint context, constraints) output. -/
theorem unparsed_line_passes_through (fs : FS)
    (package_keys override_keys ignore_keys : List Str) (fuel : Nat)
    (line : Str) (variety : String)
    (hc : "-c".toList.isPrefixOf line = false)
    (hr : "-r".toList.isPrefixOf line = false)
    (hkey : requirement_key line = none) :
    result_pair (process_line fs package_keys override_keys ignore_keys fuel line variety) =
      some (if variety = "c" then ([], [line]) else ([line], [])) := by
  unfold process_line process_line_with
  rw [if_neg (by simp only [hc]; exact Bool.false_ne_true),
      if_neg (by simp only [hr]; exact Bool.false_ne_true), hkey]
  dsimp only
  by_cases hv : variety = "c"
  · subst hv
    rfl
  · rw [if_neg hv, if_neg hv]
    rfl

theorem unparsed_line_passes_through_witness :
    result_pair (process_line ⟨[], []⟩ [] [] [] 1 "-e ./local/dir\n".toList "r") =
      some (["-e ./local/dir\n".toList], []) :=
  unparsed_line_passes_through ⟨[], []⟩ [] [] [] 1 "-e ./local/dir\n".toList "r"
    rfl rfl rfl

/-! ## Resolution pipeline claims -/

/-- The file system of the C3 scenario: a constraints entry point with a
nested `-r` include. -/
def scenario_fs : FS :=
  ⟨[("constraints.txt".toList, ["-r deps.txt\n".toList, "pkg==1.0\n".toList]),
    ("deps.txt".toList, ["other==2.0\n".toList])], []⟩

/-- C3: resolving the constraints entry point `constraints.txt` holding
`-r deps.txt` and `pkg==1.0`, with `deps.txt` holding `other==2.0` and
all key sets empty, returns exactly `other==2.0` wrapped in begin/end
delimiters naming `deps.txt` as the requirements, and exactly `pkg==1.0`
wrapped in begin/end delimiters naming the entry point as the
constraints. -/
theorem nested_include_scenario :
    result_pair (resolve_dependencies scenario_fs [] [] [] 2 "constraints.txt".toList "c") =
      some
        ([hashes79 ++ "\n".toList,
          "# begin requirements from: deps.txt\n\n".toList,
          "other==2.0\n".toList,
          "\n".toList,
          "# end requirements from: deps.txt\n".toList,
          hashes79 ++ "\n".toList],
         [hashes79 ++ "\n".toList,
          "# begin constraints from: constraints.txt\n".toList,
          "\n".toList,
          "pkg==1.0\n".toList,
          "\n".toList,
          "# end constraints from: constraints.txt\n".toList,
          hashes79 ++ "\n\n".toList]) := rfl

/-- C7: resolution is a pure function of the file contents and key sets
(every file and network read is drawn from the fixed `fs`), so running
`resolve_dependencies` twice against unchanged inputs returns identical
requirements and constraints sequences. -/
theorem resolve_dependencies_rerun_identical (fs : FS)
    (package_keys override_keys ignore_keys : List Str) (fuel : Nat)
    (target : Str) (variety : String) :
    result_pair (resolve_dependencies fs package_keys override_keys ignore_keys
        fuel target variety) =
      result_pair (resolve_dependencies fs package_keys override_keys ignore_keys
        fuel target variety) := rfl

/-- C8: a non-blank target without a URL scheme naming a local path that
is not among the files on disk resolves to empty requirements and empty
constraints with no exception; the only effect is the logged
"Can not read ... Empty file assumed." message (emitted by the code via
`logger.info`). -/
theorem missing_local_file_resolves_empty (fs : FS)
    (package_keys override_keys ignore_keys : List Str) (n : Nat)
    (target : Str) (variety : String)
    (hblank : py_strip target ≠ [])
    (hscheme : url_scheme target = [])
    (hmissing : fs.localFiles.lookup target = none) :
    resolve_dependencies fs package_keys override_keys ignore_keys (n + 1) target variety =
      .ok ⟨[], [], [read_log variety target, missing_file_log variety target]⟩ := by
  unfold resolve_dependencies
  rw [if_neg hblank]
  simp [read_and_process, hscheme, hmissing, wrap_step]

theorem missing_local_file_resolves_empty_witness :
    resolve_dependencies ⟨[], []⟩ [] [] [] 1 "nope.txt".toList "r" =
      .ok ⟨[], [], [read_log "r" "nope.txt".toList,
                    missing_file_log "r" "nope.txt".toList]⟩ :=
  missing_local_file_resolves_empty ⟨[], []⟩ [] [] [] 0 "nope.txt".toList "r"
    (by decide) rfl rfl

/-! ## Block structure of resolved output (C6) -/

/-- A list of requirement lines that is a concatenation of wrapped
blocks: each block is a non-empty body inside the begin/end delimiter
lines naming its own origin. -/
inductive ReqBlocks : List Str → Prop where
  | nil : ReqBlocks []
  | block (origin : Str) (body rest : List Str) :
      body ≠ [] → ReqBlocks rest → ReqBlocks (wrap_req origin body ++ rest)

/-- A list of constraint lines that is a concatenation of wrapped
blocks naming their origins. -/
inductive ConsBlocks : List Str → Prop where
  | nil : ConsBlocks []
  | block (origin : Str) (body rest : List Str) :
      body ≠ [] → ConsBlocks rest → ConsBlocks (wrap_cons origin body ++ rest)

theorem reqBlocks_append {xs ys : List Str} (hx : ReqBlocks xs)
    (hy : ReqBlocks ys) : ReqBlocks (xs ++ ys) := by
  induction hx with
  | nil => simpa using hy
  | block o body rest hne _ ih =>
    rw [List.append_assoc]
    exact .block o body (rest ++ ys) hne ih

theorem consBlocks_append {xs ys : List Str} (hx : ConsBlocks xs)
    (hy : ConsBlocks ys) : ConsBlocks (xs ++ ys) := by
  induction hx with
  | nil => simpa using hy
  | block o body rest hne _ ih =>
    rw [List.append_assoc]
    exact .block o body (rest ++ ys) hne ih

theorem reqBlocks_of_wrap_opt {o : Str} {xs : List Str}
    (h : xs = [] ∨ ∃ b, b ≠ [] ∧ xs = wrap_req o b) : ReqBlocks xs := by
  rcases h with h | ⟨b, hb, h⟩
  · exact h ▸ .nil
  · have := ReqBlocks.block o b [] hb .nil
    rwa [List.append_nil, ← h] at this

theorem consBlocks_of_wrap_opt {o : Str} {xs : List Str}
    (h : xs = [] ∨ ∃ b, b ≠ [] ∧ xs = wrap_cons o b) : ConsBlocks xs := by
  rcases h with h | ⟨b, hb, h⟩
  · exact h ▸ .nil
  · have := ConsBlocks.block o b [] hb .nil
    rwa [List.append_nil, ← h] at this

/-- The shape `resolve_dependencies` guarantees for one call on `target`:
in requirement variety the requirements are one wrapped block naming
`target` (or empty), and the constraints decompose into wrapped blocks;
in constraint variety, symmetrically. -/
def GoodOut (target : Str) (variety : String) (out : Out) : Prop :=
  (variety = "r" →
    (out.reqs = [] ∨ ∃ b, b ≠ [] ∧ out.reqs = wrap_req target b) ∧
      ConsBlocks out.cons) ∧
  (variety = "c" →
    (out.cons = [] ∨ ∃ b, b ≠ [] ∧ out.cons = wrap_cons target b) ∧
      ReqBlocks out.reqs)

theorem process_line_with_blocks {recur : Str → String → Except PyErr Out}
    (hrec : ∀ t v out, recur t v = .ok out → GoodOut t v out)
    (package_keys override_keys ignore_keys : List Str) (line : Str)
    (variety : String) (out : Out)
    (h : process_line_with recur package_keys override_keys ignore_keys line variety =
      .ok out) :
    (variety = "r" → ConsBlocks out.cons) ∧ (variety = "c" → ReqBlocks out.reqs) := by
  unfold process_line_with at h
  split at h
  · -- "-c" directive
    split at h
    · exact absurd h (by simp)
    · rename_i t _
      split at h
      · exact absurd h (by simp)
      · rename_i o hrecur
        cases h
        have hg := hrec _ _ _ hrecur
        constructor
        · intro _
          exact consBlocks_of_wrap_opt (hg.2 rfl).1
        · intro _
          exact (hg.2 rfl).2
  · split at h
    · -- "-r" directive
      split at h
      · exact absurd h (by simp)
      · rename_i t _
        split at h
        · exact absurd h (by simp)
        · rename_i o hrecur
          cases h
          have hg := hrec _ _ _ hrecur
          constructor
          · intro _
            exact (hg.1 rfl).2
          · intro _
            exact reqBlocks_of_wrap_opt (hg.1 rfl).1
    · -- plain dependency line
      by_cases hv : variety = "c"
      · rw [if_pos hv] at h
        cases h
        constructor
        · intro hv'
          exact absurd (hv'.symm.trans hv) (by decide)
        · intro _
          exact .nil
      · rw [if_neg hv] at h
        cases h
        constructor
        · intro _
          exact .nil
        · intro hv'
          exact absurd hv' hv

theorem process_fio_with_blocks {recur : Str → String → Except PyErr Out}
    (hrec : ∀ t v out, recur t v = .ok out → GoodOut t v out)
    (package_keys override_keys ignore_keys : List Str) (variety : String) :
    ∀ (lines : List Str) (out : Out),
      process_fio_with recur package_keys override_keys ignore_keys lines variety =
        .ok out →
      (variety = "r" → ConsBlocks out.cons) ∧ (variety = "c" → ReqBlocks out.reqs) := by
  intro lines
  induction lines with
  | nil =>
    intro out h
    cases h
    exact ⟨fun _ => .nil, fun _ => .nil⟩
  | cons l rest ih =>
    intro out h
    unfold process_fio_with at h
    split at h
    · exact absurd h (by simp)
    · rename_i o1 h1
      split at h
      · exact absurd h (by simp)
      · rename_i o2 h2
        cases h
        have g1 := process_line_with_blocks hrec package_keys override_keys ignore_keys
          l variety o1 h1
        have g2 := ih o2 h2
        exact ⟨fun hv => consBlocks_append (g1.1 hv) (g2.1 hv),
               fun hv => reqBlocks_append (g1.2 hv) (g2.2 hv)⟩

theorem read_and_process_blocks {fs : FS} {recur : Str → String → Except PyErr Out}
    (hrec : ∀ t v out, recur t v = .ok out → GoodOut t v out)
    (package_keys override_keys ignore_keys : List Str) (target : Str)
    (variety : String) (out : Out)
    (h : read_and_process fs recur package_keys override_keys ignore_keys target variety =
      .ok out) :
    (variety = "r" → ConsBlocks out.cons) ∧ (variety = "c" → ReqBlocks out.reqs) := by
  unfold read_and_process at h
  split at h
  · -- local path
    split at h
    · -- file exists
      split at h
      · exact absurd h (by simp)
      · rename_i o' hfio
        cases h
        have g := process_fio_with_blocks hrec package_keys override_keys
          ignore_keys variety _ o' hfio
        exact ⟨fun hv => g.1 hv, fun hv => g.2 hv⟩
    · -- file missing
      cases h
      exact ⟨fun _ => .nil, fun _ => .nil⟩
  · -- remote URL
    split at h
    · split at h
      · exact absurd h (by simp)
      · rename_i o' hfio
        cases h
        have g := process_fio_with_blocks hrec package_keys override_keys
          ignore_keys variety _ o' hfio
        exact ⟨fun hv => g.1 hv, fun hv => g.2 hv⟩
    · exact absurd h (by simp)

/-- C6 (amended): every call of `resolve_dependencies` that succeeds
returns, for its own variety, either an empty list (no delimiter lines
at all) or its whole output wrapped once in begin/end delimiter lines
naming the resolved target, while the opposite-variety list is a
concatenation of such wrapped blocks, each naming the nested origin it
came from, each with a non-empty body.  A block is empty only when its
source is empty; suppressed lines are retained as comments and keep the
block non-empty and wrapped. -/
theorem resolve_dependencies_blocks (fs : FS)
    (package_keys override_keys ignore_keys : List Str) :
    ∀ (fuel : Nat) (target : Str) (variety : String) (out : Out),
      resolve_dependencies fs package_keys override_keys ignore_keys fuel target variety =
        .ok out →
      GoodOut target variety out := by
  intro fuel
  induction fuel with
  | zero =>
    intro t v out h
    exact absurd h (by simp [resolve_dependencies])
  | succ n ih =>
    intro t v out h
    unfold resolve_dependencies at h
    split at h
    · -- blank entry point: empty result
      cases h
      exact ⟨fun _ => ⟨Or.inl rfl, .nil⟩, fun _ => ⟨Or.inl rfl, .nil⟩⟩
    · -- read and process, then wrap
      split at h
      · exact absurd h (by simp)
      · rename_i o hstep
        cases h
        have hgood : (v = "r" → ConsBlocks o.cons) ∧ (v = "c" → ReqBlocks o.reqs) :=
          read_and_process_blocks ih package_keys override_keys ignore_keys t v o hstep
        constructor
        · intro hv
          subst hv
          constructor
          · by_cases hne : o.reqs = []
            · left
              simp [wrap_step, hne]
            · right
              exact ⟨o.reqs, hne, by simp [wrap_step, hne]⟩
          · have : (wrap_step t "r" o).cons = o.cons := by simp [wrap_step]
            rw [this]
            exact hgood.1 rfl
        · intro hv
          subst hv
          constructor
          · by_cases hne : o.cons = []
            · left
              simp [wrap_step, hne]
            · right
              exact ⟨o.cons, hne, by simp [wrap_step, hne]⟩
          · have : (wrap_step t "c" o).reqs = o.reqs := by simp [wrap_step]
            rw [this]
            exact hgood.2 rfl

/-- C6 counterexample: a constraints file all of whose lines were
suppressed does not produce an empty block: the suppressed line is
retained as a comment, so the block is non-empty and is wrapped in
begin/end delimiter lines naming the file, contradicting the claim that
such a block emits no delimiters. -/
theorem all_suppressed_block_still_wrapped :
    result_pair (resolve_dependencies ⟨[("c.txt".toList, ["pkg==1.0\n".toList])], []⟩
        ["pkg".toList] [] [] 1 "c.txt".toList "c") =
      some ([], wrap_cons "c.txt".toList [disable_line "source" "pkg==1.0\n".toList]) ∧
    "# begin constraints from: c.txt\n".toList ∈
      wrap_cons "c.txt".toList [disable_line "source" "pkg==1.0\n".toList] ∧
    wrap_cons "c.txt".toList [disable_line "source" "pkg==1.0\n".toList] ≠ [] :=
  ⟨rfl, by decide, by decide⟩

theorem resolve_dependencies_blocks_witness :
    ConsBlocks [] ∧
    (wrap_req "a.txt".toList ["x==1\n".toList] = [] ∨
      ∃ b, b ≠ [] ∧ wrap_req "a.txt".toList ["x==1\n".toList] = wrap_req "a.txt".toList b) := by
  have h := resolve_dependencies_blocks
    ⟨[("a.txt".toList, ["x==1\n".toList])], []⟩ [] [] [] 1 "a.txt".toList "r"
    ⟨wrap_req "a.txt".toList ["x==1\n".toList], [],
      [read_log "r" "a.txt".toList, process_line_log "r" "x==1\n".toList]⟩ rfl
  exact ⟨(h.1 rfl).2, (h.1 rfl).1⟩

/-! ## Source descriptors and the revision/branch exclusivity check (C2) -/

/-- A Source Descriptor: one managed VCS package, as configured.
`revision` and `branch` are both optional; the spec makes them mutually
exclusive. -/
structure Source where
  kind : Str
  name : Str
  url : Str
  path : Str
  revision : Option Str := none
  branch : Option Str := none

/-- One concrete operation a Backend Adapter performs against the
network or the local filesystem. -/
inductive AdapterOp where
  | network (description : Str)
  | filesystem (description : Str)
deriving DecidableEq

/-- The fatal per-source configuration error of the spec's error
taxonomy. -/
structure ConfigurationError where
  message : Str
deriving DecidableEq

/-- The error raised when a source sets both `revision` and `branch`. -/
def rev_branch_conflict : ConfigurationError :=
  ⟨"revision and branch are mutually exclusive".toList⟩

/-- Modelled from the spec: the Backend Adapter `checkout` verb (the
adapter code, `mxdev.vcs`, is not among the sources under `src/`; only
its test `src/src/mxdev/tests/test_git.py` is).  Spec section 4.1:
checkout clones the target, then checks out the pinned revision, or the
pinned branch, or the default remote branch; "Mutual exclusivity of
`revision` and `branch` is validated before any network or filesystem
operation; violation is a fatal configuration error".  The returned pair
is the list of adapter operations actually performed together with the
fatal error, if any. -/
def checkout_source (s : Source) : List AdapterOp × Option ConfigurationError :=
  if s.revision.isSome ∧ s.branch.isSome then
    ([], some rev_branch_conflict)
  else
    (AdapterOp.network ("clone ".toList ++ s.url) ::
      AdapterOp.filesystem ("create ".toList ++ s.path) ::
      (match s.revision, s.branch with
       | some r, _ => [AdapterOp.filesystem ("checkout revision ".toList ++ r)]
       | none, some b =>
         [AdapterOp.network ("fetch branch ".toList ++ b),
          AdapterOp.filesystem ("checkout branch ".toList ++ b)]
       | none, none => [AdapterOp.filesystem "checkout default branch".toList]),
     none)

/-- Modelled from the spec: the Backend Adapter `update` verb.  Spec
section 4.1: update delegates to `checkout` when the path does not
exist; otherwise it fetches and re-resolves the target state (revision
pin wins, then branch, then the remote default branch).  The same
revision/branch validation precedes any operation. -/
def update_source (path_exists : Bool) (s : Source) :
    List AdapterOp × Option ConfigurationError :=
  if s.revision.isSome ∧ s.branch.isSome then
    ([], some rev_branch_conflict)
  else if path_exists then
    (AdapterOp.network ("fetch ".toList ++ s.url) ::
      (match s.revision, s.branch with
       | some r, _ => [AdapterOp.filesystem ("move to revision ".toList ++ r)]
       | none, some b =>
         [AdapterOp.filesystem ("switch and fast-forward branch ".toList ++ b)]
       | none, none => [AdapterOp.filesystem "switch to remote default branch".toList]),
     none)
  else checkout_source s

/-- C2: a Source Descriptor with both `revision` and `branch` set makes
both the checkout and the update verb fail with the fatal configuration
error while performing no adapter network or filesystem operation at
all - the conflict is never silently resolved in favor of one value. -/
theorem rev_and_branch_conflict_fatal (s : Source) (path_exists : Bool)
    (r b : Str) (hrev : s.revision = some r) (hbr : s.branch = some b) :
    checkout_source s = ([], some rev_branch_conflict) ∧
    update_source path_exists s = ([], some rev_branch_conflict) := by
  have hboth : s.revision.isSome ∧ s.branch.isSome := by
    rw [hrev, hbr]
    exact ⟨rfl, rfl⟩
  exact ⟨by unfold checkout_source; rw [if_pos hboth],
         by unfold update_source; rw [if_pos hboth]⟩

theorem rev_and_branch_conflict_fatal_witness :
    checkout_source ⟨"git".toList, "egg".toList, "u".toList, "p".toList,
        some "abc123".toList, some "test".toList⟩ =
      ([], some rev_branch_conflict) ∧
    update_source true ⟨"git".toList, "egg".toList, "u".toList, "p".toList,
        some "abc123".toList, some "test".toList⟩ =
      ([], some rev_branch_conflict) :=
  rev_and_branch_conflict_fatal _ true "abc123".toList "test".toList rfl rfl

/-! ## The writer (C9) -/

/-- `write_dev_overrides` from `src/mxdev/processing.py`, as the list of
strings written to the constraints file: a comment bar, the section
header, one line per configured override - emitted verbatim (plus
newline) unless its package key is locally managed, in which case it is
commented out with the "Source override wins!" note - and a closing
blank line. -/
def write_dev_overrides (overrides : List (Str × Str)) (package_keys : List Str) :
    List Str :=
  ("\n".toList ++ hashes79 ++ "\n".toList) ::
    "# mxdev constraint overrides\n".toList ::
    overrides.map (fun e =>
      if e.1 ∈ package_keys then
        "# ".toList ++ e.2 ++ " IGNORE mxdev constraint override. Source override wins!\n".toList
      else e.2 ++ "\n".toList) ++
    ["\n".toList]

/-- The constraints file content `write` produces: the resolved
constraint lines, then - only when at least one override is configured -
the overrides section. -/
def write_constraints (constraints : List Str) (overrides : List (Str × Str))
    (package_keys : List Str) : List Str :=
  constraints ++
    match overrides with
    | [] => []
    | _ => write_dev_overrides overrides package_keys

/-- C9: with no override configured the constraints file is exactly the
constraint blocks (no overrides section); with at least one override the
section header is present, every override whose key is not locally
managed appears verbatim, and every override whose key is locally
managed appears as the "Source override wins!" comment instead. -/
theorem writer_override_lines (constraints : List Str) (ovr : List (Str × Str))
    (package_keys : List Str) (p line : Str) :
    (write_constraints constraints [] package_keys = constraints) ∧
    (ovr ≠ [] →
      "# mxdev constraint overrides\n".toList ∈
        write_constraints constraints ovr package_keys) ∧
    ((p, line) ∈ ovr → p ∉ package_keys →
      line ++ "\n".toList ∈ write_constraints constraints ovr package_keys) ∧
    ((p, line) ∈ ovr → p ∈ package_keys →
      "# ".toList ++ line ++ " IGNORE mxdev constraint override. Source override wins!\n".toList
        ∈ write_constraints constraints ovr package_keys) := by
  refine ⟨by simp [write_constraints], ?_, ?_, ?_⟩
  · intro hne
    cases ovr with
    | nil => exact absurd rfl hne
    | cons e rest =>
      unfold write_constraints write_dev_overrides
      exact List.mem_append_right _ (List.mem_cons_of_mem _ (List.mem_cons_self _ _))
  · intro hmem hpk
    cases ovr with
    | nil => exact absurd hmem (by simp)
    | cons e rest =>
      unfold write_constraints write_dev_overrides
      refine List.mem_append_right _ (List.mem_cons_of_mem _ (List.mem_cons_of_mem _
        (List.mem_append_left _ ?_)))
      have hf := List.mem_map_of_mem (fun e : Str × Str =>
        if e.1 ∈ package_keys then
          "# ".toList ++ e.2 ++ " IGNORE mxdev constraint override. Source override wins!\n".toList
        else e.2 ++ "\n".toList) hmem
      simpa [hpk] using hf
  · intro hmem hpk
    cases ovr with
    | nil => exact absurd hmem (by simp)
    | cons e rest =>
      unfold write_constraints write_dev_overrides
      refine List.mem_append_right _ (List.mem_cons_of_mem _ (List.mem_cons_of_mem _
        (List.mem_append_left _ ?_)))
      have hf := List.mem_map_of_mem (fun e : Str × Str =>
        if e.1 ∈ package_keys then
          "# ".toList ++ e.2 ++ " IGNORE mxdev constraint override. Source override wins!\n".toList
        else e.2 ++ "\n".toList) hmem
      simpa [hpk] using hf

theorem writer_override_lines_witness :
    "b==2\n".toList ∈
      write_constraints ["x==0\n".toList]
        [("a".toList, "a==1".toList), ("b".toList, "b==2".toList)] ["a".toList] ∧
    "# a==1 IGNORE mxdev constraint override. Source override wins!\n".toList ∈
      write_constraints ["x==0\n".toList]
        [("a".toList, "a==1".toList), ("b".toList, "b==2".toList)] ["a".toList] :=
  ⟨(writer_override_lines ["x==0\n".toList]
      [("a".toList, "a==1".toList), ("b".toList, "b==2".toList)] ["a".toList]
      "b".toList "b==2".toList).2.2.1 (by decide) (by decide),
   (writer_override_lines ["x==0\n".toList]
      [("a".toList, "a==1".toList), ("b".toList, "b==2".toList)] ["a".toList]
      "a".toList "a==1".toList).2.2.2 (by decide) (by decide)⟩
